import Mathlib

/-!
Verification of the `importscanner` command-line tool (`importscanner/cli.py`).

The program scans a directory of Python files, extracts top-level imported
module names, and classifies each into stdlib / third-party / local.  The
environment-dependent collaborators (the `stdlib_list` database, the installed
distribution metadata, and `importlib.metadata.version`) are modelled as an
explicit `Env` record; every function below is a direct translation of the
corresponding Python function in `cli.py`.
-/

/-- Result of a call to `importlib.metadata.version`: either a version string,
the `PackageNotFoundError` signal, or any other unexpected exception. -/
inductive VersionResult where
  | found (v : String)
  | notFound
  | error (msg : String)
deriving DecidableEq

/-- The ambient Python environment consulted by the oracles:
`stdlibList` is the result of `stdlib_list(version_str)` (`none` models the
call raising an exception), `installedTopLevel` is the set built by
`get_all_installed_top_level_modules`, and `versionLookup` is
`importlib.metadata.version`. -/
structure Env where
  stdlibList : Option (List String)
  installedTopLevel : List String
  versionLookup : String → VersionResult

/-- Python's `str.lower()` on module names: lowercase every character. -/
def py_lower (s : String) : String :=
  String.mk (s.data.map Char.toLower)

/-- The static alias table `SUBMODULE_TO_PACKAGE` from `cli.py`. -/
def SUBMODULE_TO_PACKAGE : List (String × String) :=
  [("pkg_resources", "setuptools")]

/-- `SUBMODULE_TO_PACKAGE.get(mod, mod)`: resolve a (lowercased) module name
through the alias table, defaulting to the name itself. -/
def resolve_alias (mod : String) : String :=
  (SUBMODULE_TO_PACKAGE.lookup mod).getD mod

/-- `is_stdlib`: membership of the exact name in `stdlib_list(version_str)`;
an exception from the backing database (modelled by `none`) yields `false`. -/
def is_stdlib (env : Env) (module_name : String) : Bool :=
  match env.stdlibList with
  | some l => decide (module_name ∈ l)
  | none => false

/-- `is_installed_package`, together with the warning messages it logs:
lowercase the name, test membership in the lowercased installed index, else
resolve through the alias table and attempt a version lookup;
`PackageNotFoundError` is a plain `false`, any other error logs a warning and
yields `false`. -/
def is_installed_package_logs (env : Env) (module_name : String) :
    Bool × List String :=
  let mod := py_lower module_name
  let installed := env.installedTopLevel.map py_lower
  if mod ∈ installed then (true, [])
  else
    match env.versionLookup (resolve_alias mod) with
    | VersionResult.found _ => (true, [])
    | VersionResult.notFound => (false, [])
    | VersionResult.error e =>
        (false, ["Error checking installed package for " ++ module_name ++ ": " ++ e])

/-- The boolean value of `is_installed_package`. -/
def is_installed_package (env : Env) (module_name : String) : Bool :=
  (is_installed_package_logs env module_name).1

/-- `is_local_module`: neither stdlib nor installed. -/
def is_local_module (env : Env) (module_name : String) : Bool :=
  !(is_stdlib env module_name) && !(is_installed_package env module_name)

/-- One iteration of the loop body of `classify_imports`: the four-way
`if/elif/elif/else` that adds `module` to one of the three accumulated sets. -/
def classify_step (env : Env)
    (acc : Finset String × Finset String × Finset String) (module : String) :
    Finset String × Finset String × Finset String :=
  if is_stdlib env module then (insert module acc.1, acc.2.1, acc.2.2)
  else if is_installed_package env module then (acc.1, insert module acc.2.1, acc.2.2)
  else if is_local_module env module then (acc.1, acc.2.1, insert module acc.2.2)
  else (acc.1, insert module acc.2.1, acc.2.2)

/-- `classify_imports`: partition the discovered names into
`(stdlib, third_party, local)`. -/
def classify_imports (env : Env) (imports : List String) :
    Finset String × Finset String × Finset String :=
  imports.foldl (classify_step env) (∅, ∅, ∅)

/-- The guard under which the final `else` (defensive fallback) branch of
`classify_imports` would execute for a given name. -/
def classifier_fallback_hit (env : Env) (module : String) : Bool :=
  !(is_stdlib env module) && !(is_installed_package env module) &&
    !(is_local_module env module)

/-- `name.split(".")[0]`: the first dotted segment of an import path, i.e.
the characters before the first dot (the whole name when it has no dot). -/
def firstSegment (s : String) : String :=
  String.mk (s.data.takeWhile (fun c => c != '.'))

/-- Python's `str.endswith(suffix)`: the string ends with the given suffix. -/
def py_endswith (s suffix : String) : Bool :=
  List.isPrefixOf suffix.data.reverse s.data.reverse

/-- An import statement as seen by the `ast` walk: `import a.b, c` carries the
list of dotted names; `from ...mod import x` carries the relative level and the
optional module part (`none` for `from . import x`). -/
inductive PyStmt where
  | imp (names : List String)
  | impFrom (level : Nat) (module : Option String)
deriving DecidableEq

/-- The names contributed by one import statement: each name of a plain
`import` truncated to its first segment; the module part of a `from` import
truncated likewise when present (`if node.module:`), nothing otherwise. -/
def extract_stmt (stmt : PyStmt) : Finset String :=
  match stmt with
  | PyStmt.imp names => (names.map firstSegment).toFinset
  | PyStmt.impFrom _ mo =>
    match mo with
    | some m => {firstSegment m}
    | none => ∅

/-- A file on disk: its path and its parsed content, `none` when opening,
decoding or `ast.parse` fails. -/
structure SourceFile where
  path : String
  content : Option (List PyStmt)

/-- `extract_imports_from_file`: an unreadable or unparsable file yields the
empty set and an error-log line; otherwise the union of the names contributed
by each import statement. -/
def extract_imports_from_file (file : SourceFile) : Finset String × List String :=
  match file.content with
  | none => (∅, ["Skipping " ++ file.path])
  | some stmts => (stmts.foldl (fun acc s => acc ∪ extract_stmt s) ∅, [])

/-- One iteration of the file loop of `scan_directory`: process a file only
when its name ends in `.py`, unioning its imports and appending its logs. -/
def scan_step (acc : Finset String × List String) (file : SourceFile) :
    Finset String × List String :=
  if py_endswith file.path ".py" then
    (acc.1 ∪ (extract_imports_from_file file).1,
     acc.2 ++ (extract_imports_from_file file).2)
  else acc

/-- `scan_directory`: walk the files, extract from each `.py` file, return the
union of all discovered names along with the accumulated diagnostics. -/
def scan_directory (files : List SourceFile) : Finset String × List String :=
  files.foldl scan_step (∅, [])

/-- The line `save_requirements` writes for one package: `name==version` when
`importlib.metadata.version(pkg)` succeeds, the bare name when it raises. -/
def requirement_line (env : Env) (pkg : String) : String :=
  match env.versionLookup pkg with
  | VersionResult.found v => pkg ++ "==" ++ v
  | VersionResult.notFound => pkg
  | VersionResult.error _ => pkg

/-- `save_requirements`: the lines written to `requirements.txt`, one per
package of the third-party set, iterated in `sorted` order. -/
def save_requirements (env : Env) (third_party : Finset String) : List String :=
  (third_party.sort (· ≤ ·)).map (requirement_line env)

/-- Concrete environment: `os` in the stdlib table, `requests` installed with
metadata, `click` resolvable by version lookup at 8.1.3. -/
def envA : Env :=
  ⟨some ["os"], ["requests"],
    fun p => if p = "click" then VersionResult.found "8.1.3" else VersionResult.notFound⟩

/-- Concrete environment: `pkg_resources` appears in the installed module
index while every metadata version lookup raises `PackageNotFoundError`. -/
def envStale : Env :=
  ⟨some [], ["pkg_resources"], fun _ => VersionResult.notFound⟩

/-- Concrete environment: empty installed index, `setuptools` the only
distribution with a version. -/
def envSetup : Env :=
  ⟨some [], [],
    fun p => if p = "setuptools" then VersionResult.found "68.0.0" else VersionResult.notFound⟩

/-- Concrete environment whose version lookups all raise an unexpected
exception. -/
def envErr : Env :=
  ⟨some [], [], fun _ => VersionResult.error "metadata corrupted"⟩

lemma char_toLower_toNat (c : Char) (h : 65 ≤ c.toNat ∧ c.toNat ≤ 90) :
    (Char.toLower c).toNat = c.toNat + 32 := by
  unfold Char.toLower
  rw [if_pos]
  · have hv : (c.toNat + 32).isValidChar := Or.inl (by omega)
    rw [Char.ofNat, dif_pos hv]
    simp [Char.ofNatAux, Char.toNat, UInt32.toNat]
  · exact ⟨h.1, h.2⟩

lemma char_toLower_eq_self (c : Char) (h : ¬(65 ≤ c.toNat ∧ c.toNat ≤ 90)) :
    c.toLower = c := by
  have hn : ¬(c.toNat ≥ 65 ∧ c.toNat ≤ 90) := fun hc => h ⟨hc.1, hc.2⟩
  unfold Char.toLower
  exact if_neg hn

lemma char_toLower_idem (c : Char) : c.toLower.toLower = c.toLower := by
  by_cases h : 65 ≤ c.toNat ∧ c.toNat ≤ 90
  · have h1 := char_toLower_toNat c h
    exact char_toLower_eq_self _ (by omega)
  · rw [char_toLower_eq_self c h, char_toLower_eq_self c h]

lemma py_lower_idem (s : String) : py_lower (py_lower s) = py_lower s := by
  unfold py_lower
  congr 1
  rw [List.map_map]
  exact List.map_congr_left (fun c _ => char_toLower_idem c)

lemma classify_foldl_eq (env : Env) (l : List String) (a b c : Finset String) :
    l.foldl (classify_step env) (a, b, c) =
      (a ∪ (l.filter fun m => is_stdlib env m).toFinset,
       b ∪ (l.filter fun m => !(is_stdlib env m) && is_installed_package env m).toFinset,
       c ∪ (l.filter fun m => !(is_stdlib env m) && !(is_installed_package env m)).toFinset) := by
  induction l generalizing a b c with
  | nil => simp
  | cons x xs ih =>
    simp only [List.foldl_cons, List.filter_cons]
    cases h1 : is_stdlib env x with
    | true =>
      rw [show classify_step env (a, b, c) x = (insert x a, b, c) from by
        simp [classify_step, h1]]
      rw [ih]
      simp [h1, Finset.insert_union, Finset.union_insert]
    | false =>
      cases h2 : is_installed_package env x with
      | true =>
        rw [show classify_step env (a, b, c) x = (a, insert x b, c) from by
          simp [classify_step, h1, h2]]
        rw [ih]
        simp [h1, h2, Finset.insert_union, Finset.union_insert]
      | false =>
        rw [show classify_step env (a, b, c) x = (a, b, insert x c) from by
          simp [classify_step, is_local_module, h1, h2]]
        rw [ih]
        simp [h1, h2, Finset.insert_union, Finset.union_insert]

lemma classify_imports_eq (env : Env) (l : List String) :
    classify_imports env l =
      ((l.filter fun m => is_stdlib env m).toFinset,
       (l.filter fun m => !(is_stdlib env m) && is_installed_package env m).toFinset,
       (l.filter fun m => !(is_stdlib env m) && !(is_installed_package env m)).toFinset) := by
  rw [classify_imports, classify_foldl_eq]
  simp

lemma mem_extract_foldl (stmts : List PyStmt) (init : Finset String) (x : String) :
    x ∈ stmts.foldl (fun acc s => acc ∪ extract_stmt s) init ↔
      x ∈ init ∨ ∃ s ∈ stmts, x ∈ extract_stmt s := by
  induction stmts generalizing init with
  | nil => simp
  | cons s ss ih =>
    simp only [List.foldl_cons, ih, Finset.mem_union, List.mem_cons]
    constructor
    · rintro ((h | h) | ⟨t, ht, hx⟩)
      · exact Or.inl h
      · exact Or.inr ⟨s, Or.inl rfl, h⟩
      · exact Or.inr ⟨t, Or.inr ht, hx⟩
    · rintro (h | ⟨t, rfl | ht, hx⟩)
      · exact Or.inl (Or.inl h)
      · exact Or.inl (Or.inr hx)
      · exact Or.inr ⟨t, ht, hx⟩

/-- The union of the imports of all `.py` files of a list. -/
def scanned_imports : List SourceFile → Finset String
  | [] => ∅
  | f :: fs =>
    (if py_endswith f.path ".py" then (extract_imports_from_file f).1 else ∅) ∪
      scanned_imports fs

/-- The concatenated diagnostics of all `.py` files of a list. -/
def scanned_logs : List SourceFile → List String
  | [] => []
  | f :: fs =>
    (if py_endswith f.path ".py" then (extract_imports_from_file f).2 else []) ++
      scanned_logs fs

lemma scan_foldl_eq (files : List SourceFile) (a : Finset String) (g : List String) :
    files.foldl scan_step (a, g) = (a ∪ scanned_imports files, g ++ scanned_logs files) := by
  induction files generalizing a g with
  | nil => simp [scanned_imports, scanned_logs]
  | cons f fs ih =>
    simp only [List.foldl_cons, scanned_imports, scanned_logs]
    cases h : py_endswith f.path ".py" with
    | true =>
      rw [show scan_step (a, g) f =
          (a ∪ (extract_imports_from_file f).1, g ++ (extract_imports_from_file f).2) from by
        simp [scan_step, h]]
      rw [ih]
      simp [h, Finset.union_assoc]
    | false =>
      rw [show scan_step (a, g) f = (a, g) from by simp [scan_step, h]]
      rw [ih]
      simp [h]

lemma scan_directory_eq (files : List SourceFile) :
    scan_directory files = (scanned_imports files, scanned_logs files) := by
  rw [scan_directory, scan_foldl_eq]
  simp

lemma scanned_imports_append (xs ys : List SourceFile) :
    scanned_imports (xs ++ ys) = scanned_imports xs ∪ scanned_imports ys := by
  induction xs with
  | nil => simp [scanned_imports]
  | cons f fs ih => simp [scanned_imports, ih, Finset.union_assoc]

lemma scanned_logs_append (xs ys : List SourceFile) :
    scanned_logs (xs ++ ys) = scanned_logs xs ++ scanned_logs ys := by
  induction xs with
  | nil => simp [scanned_logs]
  | cons f fs ih => simp [scanned_logs, ih]

/-- C1: `classify_imports` partitions its input: the union of the three
returned sets equals the input set and the three sets are pairwise disjoint,
so every discovered name appears in exactly one of them. -/
theorem classify_imports_partition (env : Env) (imports : List String) :
    ((classify_imports env imports).1 ∪ (classify_imports env imports).2.1 ∪
        (classify_imports env imports).2.2 = imports.toFinset) ∧
    Disjoint (classify_imports env imports).1 (classify_imports env imports).2.1 ∧
    Disjoint (classify_imports env imports).1 (classify_imports env imports).2.2 ∧
    Disjoint (classify_imports env imports).2.1 (classify_imports env imports).2.2 := by
  rw [classify_imports_eq]
  refine ⟨?_, ?_, ?_, ?_⟩
  · ext x
    simp only [Finset.mem_union, List.mem_toFinset, List.mem_filter]
    cases h1 : is_stdlib env x <;> cases h2 : is_installed_package env x <;>
      simp [h1, h2]
  · simp only [Finset.disjoint_left, List.mem_toFinset, List.mem_filter,
      Bool.and_eq_true, Bool.not_eq_true']
    rintro x ⟨-, h⟩ ⟨-, h', -⟩
    simp [h] at h'
  · simp only [Finset.disjoint_left, List.mem_toFinset, List.mem_filter,
      Bool.and_eq_true, Bool.not_eq_true']
    rintro x ⟨-, h⟩ ⟨-, h', -⟩
    simp [h] at h'
  · simp only [Finset.disjoint_left, List.mem_toFinset, List.mem_filter,
      Bool.and_eq_true, Bool.not_eq_true']
    rintro x ⟨-, -, h⟩ ⟨-, -, h'⟩
    simp [h] at h'

/-- C2: per-name precedence of `classify_imports`, first match wins: a stdlib
name goes to the stdlib set; otherwise an installed name goes to the
third-party set; otherwise (neither stdlib nor installed) the name goes to the
local set. -/
theorem classify_imports_precedence (env : Env) (imports : List String)
    (m : String) (hm : m ∈ imports) :
    (is_stdlib env m = true → m ∈ (classify_imports env imports).1) ∧
    (is_stdlib env m = false → is_installed_package env m = true →
      m ∈ (classify_imports env imports).2.1) ∧
    (is_stdlib env m = false → is_installed_package env m = false →
      m ∈ (classify_imports env imports).2.2) := by
  rw [classify_imports_eq]
  refine ⟨fun h1 => ?_, fun h1 h2 => ?_, fun h1 h2 => ?_⟩
  · simp [List.mem_filter, hm, h1]
  · simp [List.mem_filter, hm, h1, h2]
  · simp [List.mem_filter, hm, h1, h2]

/-- Witness for C2 in the concrete environment `envA`. -/
theorem classify_imports_precedence_witness :
    "os" ∈ (classify_imports envA ["os", "requests", "mymod"]).1 ∧
    "requests" ∈ (classify_imports envA ["os", "requests", "mymod"]).2.1 ∧
    "mymod" ∈ (classify_imports envA ["os", "requests", "mymod"]).2.2 :=
  ⟨(classify_imports_precedence envA ["os", "requests", "mymod"] "os"
      (by decide)).1 (by decide),
   (classify_imports_precedence envA ["os", "requests", "mymod"] "requests"
      (by decide)).2.1 (by decide) (by decide),
   (classify_imports_precedence envA ["os", "requests", "mymod"] "mymod"
      (by decide)).2.2 (by decide) (by decide)⟩

/-- C3: the defensive fallback of `classify_imports` is unreachable: a name
that is neither stdlib nor installed satisfies `is_local_module`, so the guard
of the final `else` branch is false for every name in every environment. -/
theorem classifier_fallback_unreachable (env : Env) (m : String) :
    (is_stdlib env m = false → is_installed_package env m = false →
      is_local_module env m = true) ∧
    classifier_fallback_hit env m = false := by
  constructor
  · intro h1 h2
    simp [is_local_module, h1, h2]
  · cases h1 : is_stdlib env m <;> cases h2 : is_installed_package env m <;>
      simp [classifier_fallback_hit, is_local_module, h1, h2]

/-- Witness for C3: a name that is neither stdlib nor installed in `envA`. -/
theorem classifier_fallback_unreachable_witness :
    is_local_module envA "mymod" = true :=
  (classifier_fallback_unreachable envA "mymod").1 (by decide) (by decide)

/-- C4: for a parsable file, the extractor returns exactly the first dotted
segments of the names of plain imports and of the module parts of from-imports;
a from-import without a module part contributes nothing. -/
theorem extract_imports_spec (f : SourceFile) (stmts : List PyStmt)
    (hf : f.content = some stmts) (x : String) :
    (x ∈ (extract_imports_from_file f).1 ↔
      (∃ names, PyStmt.imp names ∈ stmts ∧ ∃ n ∈ names, firstSegment n = x) ∨
      (∃ lvl m, PyStmt.impFrom lvl (some m) ∈ stmts ∧ firstSegment m = x)) ∧
    ∀ lvl, extract_stmt (PyStmt.impFrom lvl none) = ∅ := by
  refine ⟨?_, fun lvl => rfl⟩
  simp only [extract_imports_from_file, hf]
  rw [mem_extract_foldl]
  simp only [Finset.not_mem_empty, false_or]
  constructor
  · rintro ⟨s, hs, hx⟩
    cases s with
    | imp names =>
      simp only [extract_stmt, List.mem_toFinset, List.mem_map] at hx
      obtain ⟨n, hn, rfl⟩ := hx
      exact Or.inl ⟨names, hs, n, hn, rfl⟩
    | impFrom lvl mo =>
      cases mo with
      | none => simp [extract_stmt] at hx
      | some m =>
        simp only [extract_stmt, Finset.mem_singleton] at hx
        exact Or.inr ⟨lvl, m, hs, hx.symm⟩
  · rintro (⟨names, hs, n, hn, rfl⟩ | ⟨lvl, m, hs, hx⟩)
    · refine ⟨PyStmt.imp names, hs, ?_⟩
      simp only [extract_stmt, List.mem_toFinset, List.mem_map]
      exact ⟨n, hn, rfl⟩
    · refine ⟨PyStmt.impFrom lvl (some m), hs, ?_⟩
      simp [extract_stmt, hx]

/-- Witness for C4: a file importing `foo.bar` and containing
`from . import x`. -/
theorem extract_imports_spec_witness :
    ("foo" ∈ (extract_imports_from_file
        ⟨"a.py", some [PyStmt.imp ["foo.bar"], PyStmt.impFrom 1 none]⟩).1 ↔
      (∃ names, PyStmt.imp names ∈ [PyStmt.imp ["foo.bar"], PyStmt.impFrom 1 none] ∧
        ∃ n ∈ names, firstSegment n = "foo") ∨
      (∃ lvl m, PyStmt.impFrom lvl (some m) ∈
          [PyStmt.imp ["foo.bar"], PyStmt.impFrom 1 none] ∧ firstSegment m = "foo")) ∧
    ∀ lvl, extract_stmt (PyStmt.impFrom lvl none) = ∅ :=
  extract_imports_spec ⟨"a.py", some [PyStmt.imp ["foo.bar"], PyStmt.impFrom 1 none]⟩
    [PyStmt.imp ["foo.bar"], PyStmt.impFrom 1 none] rfl "foo"

/-- C5: an undecodable or unparsable file contributes the empty set, records a
diagnostic, and the directory scan still processes all remaining files. -/
theorem parse_failure_recovery (f : SourceFile) (hf : f.content = none) :
    (extract_imports_from_file f).1 = ∅ ∧
    (extract_imports_from_file f).2 = ["Skipping " ++ f.path] ∧
    ∀ l1 l2 : List SourceFile,
      (scan_directory (l1 ++ f :: l2)).1 = (scan_directory (l1 ++ l2)).1 ∧
      (py_endswith f.path ".py" = true →
        ("Skipping " ++ f.path) ∈ (scan_directory (l1 ++ f :: l2)).2) := by
  have he : extract_imports_from_file f = (∅, ["Skipping " ++ f.path]) := by
    simp [extract_imports_from_file, hf]
  refine ⟨by rw [he], by rw [he], fun l1 l2 => ⟨?_, fun hpy => ?_⟩⟩
  · rw [scan_directory_eq, scan_directory_eq]
    show scanned_imports (l1 ++ f :: l2) = scanned_imports (l1 ++ l2)
    rw [scanned_imports_append, scanned_imports_append]
    have hmid : scanned_imports (f :: l2) = scanned_imports l2 := by
      simp only [scanned_imports, he]
      cases py_endswith f.path ".py" <;> simp
    rw [hmid]
  · rw [scan_directory_eq]
    show _ ∈ scanned_logs (l1 ++ f :: l2)
    rw [scanned_logs_append]
    simp [scanned_logs, hpy, he]

/-- Witness for C5: a directory with one good file and one broken file. -/
theorem parse_failure_recovery_witness :
    (extract_imports_from_file (⟨"bad.py", none⟩ : SourceFile)).1 = ∅ ∧
    (scan_directory [⟨"good.py", some [PyStmt.imp ["os"]]⟩, ⟨"bad.py", none⟩]).1 =
      (scan_directory [⟨"good.py", some [PyStmt.imp ["os"]]⟩]).1 ∧
    "Skipping bad.py" ∈
      (scan_directory [⟨"good.py", some [PyStmt.imp ["os"]]⟩, ⟨"bad.py", none⟩]).2 :=
  ⟨(parse_failure_recovery ⟨"bad.py", none⟩ rfl).1,
   ((parse_failure_recovery ⟨"bad.py", none⟩ rfl).2.2
      [⟨"good.py", some [PyStmt.imp ["os"]]⟩] []).1,
   ((parse_failure_recovery ⟨"bad.py", none⟩ rfl).2.2
      [⟨"good.py", some [PyStmt.imp ["os"]]⟩] []).2 (by decide)⟩

/-- C10: the relative level of a from-import is never inspected: a from-import
naming a module contributes the first segment of that module exactly as a
plain import would, at any level; only a from-import with no module part
contributes nothing. -/
theorem from_import_level_ignored (lvl lvl' : Nat) (mo : Option String) (m : String) :
    extract_stmt (PyStmt.impFrom lvl mo) = extract_stmt (PyStmt.impFrom lvl' mo) ∧
    extract_stmt (PyStmt.impFrom lvl (some m)) = {firstSegment m} ∧
    extract_stmt (PyStmt.impFrom lvl (some m)) = extract_stmt (PyStmt.imp [m]) ∧
    extract_stmt (PyStmt.impFrom 1 (some "utils.helpers")) = {"utils"} ∧
    extract_stmt (PyStmt.impFrom lvl none) = ∅ := by
  refine ⟨rfl, rfl, ?_, by decide, rfl⟩
  simp [extract_stmt]

/-- C6: the installed-package check is case-insensitive in its argument while
the standard-library check is a case-sensitive exact match against the
version's stdlib list. -/
theorem case_handling (env : Env) (name : String) :
    is_installed_package env name = is_installed_package env (py_lower name) ∧
    ∀ l, env.stdlibList = some l → (is_stdlib env name = true ↔ name ∈ l) := by
  constructor
  · unfold is_installed_package is_installed_package_logs
    rw [py_lower_idem]
    by_cases h : py_lower name ∈ env.installedTopLevel.map py_lower
    · simp [h]
    · cases hv : env.versionLookup (resolve_alias (py_lower name)) <;> simp [h, hv]
  · intro l hl
    simp [is_stdlib, hl]

/-- Witness for C6: `NumPy` and its lowercasing agree in `envA`, and `OS` is
stdlib exactly when it is literally in `envA`'s stdlib list (it is not). -/
theorem case_handling_witness :
    is_installed_package envA "NumPy" = is_installed_package envA (py_lower "NumPy") ∧
    (is_stdlib envA "OS" = true ↔ "OS" ∈ ["os"]) :=
  ⟨(case_handling envA "NumPy").1, (case_handling envA "OS").2 ["os"] rfl⟩

/-- C7: order of the installed-package oracle: lowercase membership in the
installed index wins first; otherwise the alias-resolved version lookup
decides, with `PackageNotFoundError` a plain false and an unexpected error a
logged warning plus false — never true on an ambiguous error. -/
theorem is_installed_package_order (env : Env) (name : String) :
    (py_lower name ∈ env.installedTopLevel.map py_lower →
      is_installed_package env name = true) ∧
    (py_lower name ∉ env.installedTopLevel.map py_lower →
      (∀ v, env.versionLookup (resolve_alias (py_lower name)) = VersionResult.found v →
        is_installed_package env name = true) ∧
      (env.versionLookup (resolve_alias (py_lower name)) = VersionResult.notFound →
        is_installed_package env name = false) ∧
      (∀ e, env.versionLookup (resolve_alias (py_lower name)) = VersionResult.error e →
        is_installed_package env name = false ∧
          (is_installed_package_logs env name).2 ≠ [])) := by
  unfold is_installed_package is_installed_package_logs
  by_cases h : py_lower name ∈ env.installedTopLevel.map py_lower
  · refine ⟨fun _ => by simp [h], fun hc => absurd h hc⟩
  · refine ⟨fun hc => absurd hc h, fun _ => ⟨fun v hv => ?_, fun hv => ?_, fun e hv => ?_⟩⟩ <;>
      simp [h, hv]

/-- Witness for C7: the four branches of the oracle, each at a concrete
environment and name. -/
theorem is_installed_package_order_witness :
    is_installed_package envA "Requests" = true ∧
    is_installed_package envA "click" = true ∧
    is_installed_package envA "mymod" = false ∧
    (is_installed_package envErr "mymod" = false ∧
      (is_installed_package_logs envErr "mymod").2 ≠ []) :=
  ⟨(is_installed_package_order envA "Requests").1 (by decide),
   ((is_installed_package_order envA "click").2 (by decide)).1 "8.1.3" (by decide),
   ((is_installed_package_order envA "mymod").2 (by decide)).2.1 (by decide),
   ((is_installed_package_order envErr "mymod").2 (by decide)).2.2
     "metadata corrupted" (by decide)⟩

/-- C8 counterexample: in `envStale` the aliased name `pkg_resources` is
classified third-party through the installed module index even though the
version lookup of its mapped target `setuptools` fails, so "third-party iff
the mapped target has a successful version lookup" is false as stated. -/
theorem alias_classification_cex :
    ("pkg_resources", "setuptools") ∈ SUBMODULE_TO_PACKAGE ∧
    resolve_alias "pkg_resources" = "setuptools" ∧
    "pkg_resources" ∈ (classify_imports envStale ["pkg_resources"]).2.1 ∧
    envStale.versionLookup "setuptools" = VersionResult.notFound := by
  refine ⟨by decide, by decide, ?_, rfl⟩
  rw [classify_imports_eq]
  simp only [List.mem_toFinset, List.mem_filter]
  refine ⟨by decide, by decide⟩

/-- C8 amended: for a name whose lowercase form is an alias-table key, is not
classified stdlib, and is not found in the installed module index, the name
classifies as third-party iff the version lookup of its mapped target
succeeds. -/
theorem alias_classification_amended (env : Env) (name target : String)
    (halias : SUBMODULE_TO_PACKAGE.lookup (py_lower name) = some target)
    (hstd : is_stdlib env name = false)
    (hidx : py_lower name ∉ env.installedTopLevel.map py_lower)
    (imports : List String) (hmem : name ∈ imports) :
    name ∈ (classify_imports env imports).2.1 ↔
      ∃ v, env.versionLookup target = VersionResult.found v := by
  have hres : resolve_alias (py_lower name) = target := by
    simp [resolve_alias, halias]
  have hinst : ∀ v, env.versionLookup target = VersionResult.found v →
      is_installed_package env name = true := by
    intro v hv
    unfold is_installed_package is_installed_package_logs
    simp [hres, if_neg hidx, hv]
  rw [classify_imports_eq]
  simp only [List.mem_toFinset, List.mem_filter, Bool.and_eq_true, Bool.not_eq_true']
  constructor
  · rintro ⟨-, -, hi⟩
    unfold is_installed_package is_installed_package_logs at hi
    simp only [hres, if_neg hidx] at hi
    cases hv : env.versionLookup target with
    | found v => exact ⟨v, rfl⟩
    | notFound => rw [hv] at hi; simp at hi
    | error e => rw [hv] at hi; simp at hi
  · rintro ⟨v, hv⟩
    exact ⟨hmem, hstd, hinst v hv⟩

/-- Witness for the amended C8: in `envSetup`, `pkg_resources` is third-party
iff `setuptools` has a version (it does, so both sides hold). -/
theorem alias_classification_amended_witness :
    "pkg_resources" ∈ (classify_imports envSetup ["pkg_resources"]).2.1 ↔
      ∃ v, envSetup.versionLookup "setuptools" = VersionResult.found v :=
  alias_classification_amended envSetup "pkg_resources" "setuptools"
    (by decide) (by decide) (by decide) ["pkg_resources"] (by decide)

/-- C9: the manifest emitter produces exactly one line per third-party
package, in ascending lexicographic order of package name; a line is
`name==version` when the version lookup succeeds and the bare name when it
fails. -/
theorem save_requirements_spec (env : Env) (tp : Finset String) :
    (∀ pkg v, env.versionLookup pkg = VersionResult.found v →
      requirement_line env pkg = pkg ++ "==" ++ v) ∧
    (∀ pkg, env.versionLookup pkg = VersionResult.notFound →
      requirement_line env pkg = pkg) ∧
    (∀ pkg e, env.versionLookup pkg = VersionResult.error e →
      requirement_line env pkg = pkg) ∧
    ∃ pkgs : List String, pkgs.Nodup ∧ pkgs.toFinset = tp ∧
      List.Sorted (· ≤ ·) pkgs ∧
      save_requirements env tp = pkgs.map (requirement_line env) := by
  refine ⟨fun pkg v hv => by simp [requirement_line, hv],
    fun pkg hv => by simp [requirement_line, hv],
    fun pkg e hv => by simp [requirement_line, hv],
    tp.sort (· ≤ ·), Finset.sort_nodup _ tp, Finset.sort_toFinset _ tp,
    Finset.sort_sorted _ tp, rfl⟩

/-- Witness for C9: Scenario 4, `third_party = {click}` with click installed
at version 8.1.3. -/
theorem save_requirements_spec_witness :
    requirement_line envA "click" = "click" ++ "==" ++ "8.1.3" ∧
    ∃ pkgs : List String, pkgs.Nodup ∧ pkgs.toFinset = ({"click"} : Finset String) ∧
      List.Sorted (· ≤ ·) pkgs ∧
      save_requirements envA {"click"} = pkgs.map (requirement_line envA) :=
  ⟨(save_requirements_spec envA {"click"}).1 "click" "8.1.3" (by decide),
   (save_requirements_spec envA {"click"}).2.2.2⟩
